import Mathlib

/-!
# Wallet front end: transaction address display and the send-bitcoin form

A shallow embedding of two view components:

* `components/TransactionListItem/Addresses/index.js` (`Addresses`);
* `modals/Btc/SendBtc/FirstStep/template.success.js` (`FirstStep`).

JavaScript values are embedded as `JSVal`; the operators the two files use
(`&&`, `||`, `!`, `===`, property access) are embedded with their JavaScript
meaning, property access on `undefined`/`null` being the only operation that
throws.  A component is a function from its props to the tree of elements its
JSX builds; the trees are records with one field per JSX node.
-/

namespace Wallet

/-! ## JavaScript values -/

/-- JavaScript values that reach the two components as props. -/
inductive JSVal where
  | undefined
  | null
  | bool (b : Bool)
  | num (n : Int)
  | str (s : String)
  | arr (items : List JSVal)
  | obj (fields : List (String × JSVal))

/-- JavaScript `ToBoolean` (numbers are the integers; `NaN` is not embedded). -/
def truthy : JSVal → Bool
  | .undefined => false
  | .null => false
  | .bool b => b
  | .num n => n != 0
  | .str s => s != ""
  | .arr _ => true
  | .obj _ => true

/-- JavaScript `a || b`: the left operand when it is truthy, else the right one. -/
def jsOr (a b : JSVal) : JSVal := if truthy a then a else b

/-- JavaScript `!a`. -/
def jsNot (a : JSVal) : JSVal := .bool (!truthy a)

/-- JavaScript `v === 'lit'` for a string literal on the right. -/
def strictEqStr (v : JSVal) (lit : String) : Bool :=
  match v with
  | .str s => s == lit
  | _ => false

/-- Ramda `equals(v, 'lit')` for a string literal on the right: structural
equality, which for a primitive string is equality of strings. -/
def equals (v : JSVal) (lit : String) : Bool :=
  match v with
  | .str s => s == lit
  | _ => false

/-- Own-property lookup in an object literal's field list. -/
def lookupField (k : String) : List (String × JSVal) → JSVal
  | [] => .undefined
  | (k', v) :: rest => if k' == k then v else lookupField k rest

/-- JavaScript `v.k` for the two property names the components read on a
prop (`type`, `label`): throws a `TypeError` on `undefined` and `null`, reads
the field of an object, and is `undefined` on a primitive or an array, whose
prototypes have neither property. -/
def member (v : JSVal) (k : String) : Except String JSVal :=
  match v with
  | .undefined => .error ("TypeError: Cannot read property " ++ k ++ " of undefined")
  | .null => .error ("TypeError: Cannot read property " ++ k ++ " of null")
  | .obj fields => .ok (lookupField k fields)
  | _ => .ok .undefined

/-- The value of a JSX child `{cond && <El/>}`: the element when `cond` is
truthy, the falsy value of `cond` otherwise. -/
inductive Child (α : Type) where
  | value (v : JSVal)
  | element (e : α)

/-- JSX `{cond && <El/>}`. -/
def Child.guard {α : Type} (cond : JSVal) (e : α) : Child α :=
  if truthy cond then .element e else .value cond

/-- Whether a JSX child is an element. -/
def Child.isElement {α : Type} : Child α → Bool
  | .element _ => true
  | .value _ => false

/-- The element of a JSX child, when it is one. -/
def Child.element? {α : Type} : Child α → Option α
  | .element e => some e
  | .value _ => none

/-! ## `Addresses` -/

/-- A transaction input or output: `{ address, label? }`; `label` is
`undefined` when the entry has none. -/
structure IOEntry where
  address : String
  label : JSVal

/-- A `<Text>` element with its size, weight and text content. -/
structure TextEl where
  size : String
  weight : Nat
  id : Option String := none
  content : String

/-- A `<FormattedMessage>` element. -/
structure MessageEl where
  id : String
  defaultMessage : String
deriving DecidableEq

/-- A `<Tooltip>` of `Addresses`: `children` is `none` when the child
expression is `undefined` (the list is absent). -/
structure TooltipEl where
  width : String
  label : TextEl
  hover : JSVal
  children : Option (List (Child TextEl))

/-- A `<TextGroup inline>` of `Addresses`: heading and tooltip. -/
structure TextGroupEl where
  heading : MessageEl
  tooltip : TooltipEl

/-- Props of `Addresses`; `outputs`/`inputs` are `none` when absent. -/
structure AddressesProps where
  from_ : String
  to_ : String
  outputs : Option (List IOEntry)
  inputs : Option (List IOEntry)
  coin : JSVal

/-- The tree `Addresses` returns: the "To" group and the "From" group. -/
structure AddressesView where
  toGroup : TextGroupEl
  fromGroup : TextGroupEl

/-- Source: `const hasLabel = (io) => io.label`. -/
def hasLabel (io : IOEntry) : JSVal := io.label

/-- The expression `equals(coin, 'BCH') ? utils.bch.toCashAddr(a, true) : a`.
`toCashAddr` (package `blockchain-wallet-v4`) is taken as a parameter. -/
def format (toCashAddr : String → Bool → String) (a : String) (coin : JSVal) : String :=
  if equals coin "BCH" then toCashAddr a true else a

/-- The expression `list && list.some(hasLabel)`. -/
def hoverFlag (list : Option (List IOEntry)) : JSVal :=
  match list with
  | none => .undefined
  | some ios => .bool (ios.any fun io => truthy (hasLabel io))

/-- The expression
`list && list.map((io) => io.label && <Text size='12px' weight={300}>…</Text>)`. -/
def addressChildren (toCashAddr : String → Bool → String) (coin : JSVal)
    (list : Option (List IOEntry)) : Option (List (Child TextEl)) :=
  match list with
  | none => none
  | some ios =>
    some (ios.map fun io =>
      Child.guard io.label
        { size := "12px", weight := 300, content := format toCashAddr io.address coin })

/-- Source: `const Addresses = props => …`. -/
def Addresses (toCashAddr : String → Bool → String) (props : AddressesProps) : AddressesView :=
  let labelTo : TextEl :=
    { size := "13px", weight := 300, id := some "scenes.transactions.content.list.listitem.to",
      content := props.to_ }
  let labelFrom : TextEl :=
    { size := "13px", weight := 300, id := some "scenes.transactions.content.list.listitem.from",
      content := props.from_ }
  { toGroup :=
      { heading := { id := "scenes.transactions.content.list.listitem.to", defaultMessage := "To: " }
        tooltip :=
          { width := "auto", label := labelTo, hover := hoverFlag props.outputs
            children := addressChildren toCashAddr props.coin props.outputs } }
    fromGroup :=
      { heading := { id := "scenes.transactions.content.list.listitem.to", defaultMessage := "From: " }
        tooltip :=
          { width := "auto", label := labelFrom, hover := hoverFlag props.inputs
            children := addressChildren toCashAddr props.coin props.inputs } } }

/-- The address texts a tooltip displays: the contents of its `<Text>`
children, in order; a child that is a falsy value displays no address. -/
def TooltipEl.addresses (t : TooltipEl) : List String :=
  match t.children with
  | none => []
  | some cs => cs.filterMap fun c => (Child.element? c).map TextEl.content

/-! ## `FirstStep` -/

/-- The validation callbacks `FirstStep` imports from `services/FormHelper`
and `./validation` and hands to its fields by name. -/
inductive ValidatorId where
  | required
  | validBitcoinAddress
  | validBitcoinPrivateKey
  | isAddressDerivedFromPriv
  | insufficientFunds
  | minimumAmount
  | maximumAmount
  | minimumFeePerByte
  | maximumFeePerByte
  | minimumOneSatoshi
  | invalidAmount
deriving DecidableEq, Repr

/-- The callback props of `FirstStep`. -/
inductive Handler where
  | handleFeePerByteToggle
  | handleToToggle
  | handleSubmit
deriving DecidableEq, Repr

/-- A redux-form `<Field>` element: its `name`, `component`, the `validate`
and `warn` lists, and its remaining props. -/
structure FieldEl where
  name : String
  component : String
  validate : List ValidatorId := []
  warn : List ValidatorId := []
  attrs : List (String × JSVal) := []

/-- A `<QRCodeCapture>` element. -/
structure QRCodeCaptureEl where
  scanType : String
  border : List String
deriving DecidableEq

/-- The `<Row>` holding the private-key field of a watch-only account. -/
structure PrivRowEl where
  field : FieldEl
  qr : QRCodeCaptureEl

/-- The `<BrowserWarning type='warning'>` banner. -/
structure BannerEl where
  type : String
  textColor : String
  textSize : String
  message : MessageEl
deriving DecidableEq

/-- An `<AddressButton>` with its icon. -/
structure AddressButtonEl where
  onClick : Handler
  iconName : String
  iconSize : String
deriving DecidableEq

/-- The `<FeeOptionsContainer>` with the regular and priority fee links. -/
structure FeeOptionsEl where
  regularFee : JSVal
  priorityFee : JSVal

/-- The `<Link>` that switches between preset and custom fee entry. -/
structure FeeLinkEl where
  onClick : Handler
  dataE2e : String
  message : MessageEl
deriving DecidableEq

/-- The `<Button type='submit'>` of the form. -/
structure ButtonEl where
  type : String
  nature : String
  dataE2e : String
  disabled : JSVal
  message : MessageEl

/-- Props of `FirstStep`.  The first three come from the form wrapper; the
callbacks are referred to by `Handler`; `from_` is the prop `from`. -/
structure Props where
  invalid : JSVal
  submitting : JSVal
  pristine : JSVal
  from_ : JSVal
  watchOnly : JSVal
  destination : JSVal
  toToggled : JSVal
  enableToggle : JSVal
  feePerByteToggled : JSVal
  feePerByteElements : JSVal
  regularFeePerByte : JSVal
  priorityFeePerByte : JSVal
  isPriorityFeePerByte : JSVal
  totalFee : JSVal
  excludeLockbox : JSVal

/-- The tree `FirstStep` returns, one field per JSX node, in source order. -/
structure FirstStepView where
  onSubmit : Handler
  coinField : FieldEl
  fromField : FieldEl
  privRow : Child PrivRowEl
  browserWarning : Child BannerEl
  toSelect : Child FieldEl
  toText : Child FieldEl
  toQr : QRCodeCaptureEl
  toButton : Option AddressButtonEl
  amountField : FieldEl
  descriptionField : FieldEl
  feeFormToggled : JSVal
  feeSelect : Child FieldEl
  feeOptions : Child FeeOptionsEl
  feeCustom : Child FieldEl
  totalFee : JSVal
  feeLink : FeeLinkEl
  estimated : Child MessageEl
  estimated2 : Child MessageEl
  continueButton : ButtonEl

/-- Source, lines 91-94:
`from && from.type === 'LOCKBOX' && !(bowser.name === 'Chrome' || bowser.name === 'Chromium')`.
`bowserName` is the module-level `bowser.name`. -/
def disableLockboxSend (bowserName : JSVal) (from_ : JSVal) : Except String JSVal :=
  if truthy from_ then do
    let type ← member from_ "type"
    if strictEqStr type "LOCKBOX" then
      pure (.bool (!(strictEqStr bowserName "Chrome" || strictEqStr bowserName "Chromium")))
    else
      pure (.bool false)
  else
    pure from_

/-- Source, lines 128-145: `<Row> <Field name='priv' …/> <QRCodeCapture …/> </Row>`. -/
def privRowEl : PrivRowEl :=
  { field :=
      { name := "priv", component := "TextBox"
        validate := [.required, .validBitcoinPrivateKey, .isAddressDerivedFromPriv]
        attrs := [("placeholder", .str "Please enter your private key..."),
                  ("autoFocus", .bool true), ("errorBottom", .bool true)] }
    qr := { scanType := "btcPriv", border := ["top", "bottom", "right"] } }

/-- Source, lines 127-146: `watchOnly && (<Row>…</Row>)`. -/
def privRow (props : Props) : Child PrivRowEl :=
  Child.guard props.watchOnly privRowEl

/-- Source, lines 149-158: `disableLockboxSend && (<BrowserWarning type='warning'>…)`. -/
def browserWarning (disableLockbox : JSVal) : Child BannerEl :=
  Child.guard disableLockbox
    { type := "warning", textColor := "warning", textSize := "12px"
      message :=
        { id := "modals.sendbtc.firststep.lockboxwarn"
          defaultMessage :=
            "Sending Bitcoin from Lockbox can only be done while using the Chrome browser" } }

/-- Source, lines 168-179: `toToggled && (<Field name='to' … exclude={[from.label]} …/>)`.
The element's props are evaluated only when `toToggled` is truthy. -/
def toSelect (props : Props) : Except String (Child FieldEl) :=
  if truthy props.toToggled then do
    let label ← member props.from_ "label"
    pure (.element
      { name := "to", component := "SelectBoxBtcAddresses"
        validate := [.required]
        attrs := [("menuIsOpen", jsNot props.destination), ("exclude", .arr [label]),
                  ("includeAll", .bool false), ("hideIndicator", .bool true),
                  ("hideErrors", .bool true)] })
  else
    pure (.value props.toToggled)

/-- Source, lines 180-188: `!toToggled && (<Field name='to' … component={TextBox} …/>)`. -/
def toText (props : Props) : Child FieldEl :=
  Child.guard (jsNot props.toToggled)
    { name := "to", component := "TextBox"
      validate := [.required, .validBitcoinAddress]
      attrs := [("placeholder", .str "Paste or scan an address, or select a destination"),
                ("autoFocus", .bool true)] }

/-- Source, lines 195-205: `enableToggle ? (!toToggled ? <down-arrow> : <pencil>) : null`. -/
def toButton (props : Props) : Option AddressButtonEl :=
  if truthy props.enableToggle then
    if truthy (jsNot props.toToggled) then
      some { onClick := .handleToToggle, iconName := "down-arrow", iconSize := "11px" }
    else
      some { onClick := .handleToToggle, iconName := "pencil", iconSize := "13px" }
  else
    none

/-- Source, lines 261-267: the preset selector, `!feePerByteToggled && (<Field name='feePerByte' …/>)`. -/
def feeSelect (props : Props) : Child FieldEl :=
  Child.guard (jsNot props.feePerByteToggled)
    { name := "feePerByte", component := "SelectBox"
      attrs := [("elements", props.feePerByteElements)] }

/-- Source, lines 268-274: `feePerByteToggled && (<FeeOptionsContainer>…)`. -/
def feeOptions (props : Props) : Child FeeOptionsEl :=
  Child.guard props.feePerByteToggled
    { regularFee := props.regularFeePerByte, priorityFee := props.priorityFeePerByte }

/-- Source, lines 278-287: the custom input `<Field name='feePerByte' …/>`. -/
def customFeeField : FieldEl :=
  { name := "feePerByte", component := "NumberBoxDebounced"
    validate := [.required, .minimumOneSatoshi]
    warn := [.minimumFeePerByte, .maximumFeePerByte]
    attrs := [("errorBottom", .bool true), ("errorLeft", .bool true),
              ("unit", .str "sat/byte"), ("data-e2e", .str "sendBtcCustomFeeInput")] }

/-- Source, lines 276-289:
`feePerByteToggled && (<FeePerByteContainer><Field name='feePerByte' …/></FeePerByteContainer>)`. -/
def feeCustom (props : Props) : Child FieldEl :=
  Child.guard props.feePerByteToggled customFeeField

/-- Source, lines 296-314: the link whose click calls `handleFeePerByteToggle`. -/
def feeLink (props : Props) : FeeLinkEl :=
  { onClick := .handleFeePerByteToggle, dataE2e := "sendBtcCustomFeeLink"
    message :=
      if truthy props.feePerByteToggled then
        { id := "modals.sendbtc.firststep.cancel", defaultMessage := "Cancel" }
      else
        { id := "modals.sendbtc.firststep.edit", defaultMessage := "Customize fee" } }

/-- Source, line 338: `submitting || invalid || pristine || disableLockboxSend`. -/
def disabledExpr (props : Props) (disableLockbox : JSVal) : JSVal :=
  jsOr (jsOr (jsOr props.submitting props.invalid) props.pristine) disableLockbox

/-- The value of the Continue button's `disabled` prop: `disableLockboxSend`
is computed first (lines 91-94), then the disjunction of line 338. -/
def continueDisabled (bowserName : JSVal) (props : Props) : Except String JSVal := do
  let disableLockbox ← disableLockboxSend bowserName props.from_
  pure (disabledExpr props disableLockbox)

/-- The JSX of `FirstStep` (lines 97-346), given the value of
`disableLockboxSend` and the destination selector `toToggled && (…)`. -/
def firstStepTree (props : Props) (disableLockbox : JSVal) (toSel : Child FieldEl) :
    FirstStepView :=
  let coinField : FieldEl :=
    { name := "coin", component := "SelectBoxCoin", validate := [.required]
      attrs := [("type", .str "send")] }
  let fromField : FieldEl :=
    { name := "from", component := "SelectBoxBtcAddresses", validate := [.required]
      attrs := [("includeAll", .bool false), ("excludeLockbox", props.excludeLockbox)] }
  let priv := privRow props
  let warning := browserWarning disableLockbox
  let toTxt := toText props
  let toQr : QRCodeCaptureEl :=
    { scanType := "btcAddress"
      border := if truthy props.enableToggle then ["top", "bottom"] else ["top", "bottom", "right"] }
  let amountField : FieldEl :=
    { name := "amount", component := "FiatConvertor"
      validate := [.required, .invalidAmount, .insufficientFunds, .minimumAmount, .maximumAmount]
      attrs := [("coin", .str "BTC"), ("data-e2e", .str "sendBtc")] }
  let descriptionField : FieldEl :=
    { name := "description", component := "TextAreaDebounced"
      attrs := [("placeholder", .str "What's this transaction for? (optional)"),
                ("rows", .num 3), ("data-e2e", .str "sendBtcDescription")] }
  { onSubmit := .handleSubmit
    coinField := coinField
    fromField := fromField
    privRow := priv
    browserWarning := warning
    toSelect := toSel
    toText := toTxt
    toQr := toQr
    toButton := toButton props
    amountField := amountField
    descriptionField := descriptionField
    feeFormToggled := props.feePerByteToggled
    feeSelect := feeSelect props
    feeOptions := feeOptions props
    feeCustom := feeCustom props
    totalFee := props.totalFee
    feeLink := feeLink props
    estimated :=
      Child.guard (jsNot props.isPriorityFeePerByte)
        { id := "modals.sendbtc.firststep.estimated"
          defaultMessage := "Estimated confirmation time 1+ hour" }
    estimated2 :=
      Child.guard props.isPriorityFeePerByte
        { id := "modals.sendbtc.firststep.estimated2"
          defaultMessage := "Estimated confirmation time 0-60 minutes" }
    continueButton :=
      { type := "submit", nature := "primary", dataE2e := "sendBtcContinue"
        disabled := disabledExpr props disableLockbox
        message :=
          { id := "modals.sendbtc.firststep.continue", defaultMessage := "Continue" } } }

/-- Source: `const FirstStep = props => …`.  `disableLockboxSend` is computed
first; the JSX is then built, its only expression that can throw being the
`from.label` of the destination selector; a thrown `TypeError` aborts the
render. -/
def FirstStep (bowserName : JSVal) (props : Props) : Except String FirstStepView := do
  let disableLockbox ← disableLockboxSend bowserName props.from_
  let toSel ← toSelect props
  pure (firstStepTree props disableLockbox toSel)

/-- The `<Field>` elements of a rendered `FirstStep`, in source order. -/
def FirstStepView.fields (v : FirstStepView) : List FieldEl :=
  [v.coinField, v.fromField]
    ++ ((Child.element? v.privRow).map PrivRowEl.field).toList
    ++ (Child.element? v.toSelect).toList
    ++ (Child.element? v.toText).toList
    ++ [v.amountField, v.descriptionField]
    ++ (Child.element? v.feeSelect).toList
    ++ (Child.element? v.feeCustom).toList

/-- Whether the Continue button can be pressed: its `disabled` value was
computed and is falsy. -/
def continueEnabled (bowserName : JSVal) (props : Props) : Bool :=
  match continueDisabled bowserName props with
  | .ok d => !truthy d
  | .error _ => false

/-- Whether the browser warning banner is part of the rendered view. -/
def bannerShown (bowserName : JSVal) (props : Props) : Bool :=
  match FirstStep bowserName props with
  | .ok v => Child.isElement v.browserWarning
  | .error _ => false

/-- A valid, modified, idle form whose `from` account is a Lockbox device. -/
def lockboxProps : Props :=
  { invalid := .bool false, submitting := .bool false, pristine := .bool false
    from_ := .obj [("type", .str "LOCKBOX"), ("label", .str "My Lockbox")]
    watchOnly := .bool false, destination := .undefined, toToggled := .bool false
    enableToggle := .bool true, feePerByteToggled := .bool false
    feePerByteElements := .arr [], regularFeePerByte := .num 5, priorityFeePerByte := .num 20
    isPriorityFeePerByte := .bool false, totalFee := .str "0", excludeLockbox := .bool false }

/-! ## Field-level validation

`FirstStep` hands its validation callbacks to `<Field>` by name; the callbacks
themselves (`services/FormHelper`, `./validation`) and the form wrapper that
runs them are outside the two files.  The callbacks are a parameter: a
`ValidatorEnv` gives, for the current form values and props, what each callback
returns on a field value (`none` for `undefined`: the value passes). -/

/-- What each imported validation callback returns on a field value. -/
abbrev ValidatorEnv := ValidatorId → JSVal → Option String

/-- The field-level contract of `<Field validate={[…]}>` and `warn={[…]}`: the
callbacks of the list run in order on the field's value and the first result
that is not `undefined` is the field's error (or warning). -/
def runChecks (env : ValidatorEnv) (checks : List ValidatorId) (value : JSVal) : Option String :=
  match checks with
  | [] => none
  | c :: rest =>
    match env c value with
    | some e => some e
    | none => runChecks env rest value

/-- The blocking validation result of a field: its `validate` list run on the
value the form holds under the field's name. -/
def FieldEl.error (env : ValidatorEnv) (values : List (String × JSVal)) (f : FieldEl) :
    Option String :=
  runChecks env f.validate (lookupField f.name values)

/-- The advisory result of a field: its `warn` list run on the value the form
holds under the field's name. -/
def FieldEl.warning (env : ValidatorEnv) (values : List (String × JSVal)) (f : FieldEl) :
    Option String :=
  runChecks env f.warn (lookupField f.name values)

/-- Modelled from the spec: the form-validity flag that the wrapper
`reduxForm({ form, destroyOnUnmount: false, shouldError, shouldWarn })` computes
(the wrapper and `shouldError` of `./validation` are not in the two files).
Spec: "Form validity: derived boolean combining field-level validation results";
"Soft warnings … do not block submission".  The form is invalid when some
rendered field has a blocking validation result; warnings take no part. -/
def formInvalid (env : ValidatorEnv) (values : List (String × JSVal)) (fields : List FieldEl) :
    Bool :=
  fields.any fun f => (f.error env values).isSome

/-- Modelled from the spec: `reduxForm(…)(FirstStep)`, the exported component.
The fields the template renders register with the form, the form validates
them, and the template is rendered with the resulting `invalid` flag;
`submitting` and `pristine` are left as given. -/
def wrappedFirstStep (env : ValidatorEnv) (bowserName : JSVal) (own : Props)
    (values : List (String × JSVal)) : Except String FirstStepView := do
  let mounted ← FirstStep bowserName own
  FirstStep bowserName { own with invalid := .bool (formInvalid env values mounted.fields) }

/-- The callbacks with the two fee-bound checks returning nothing. -/
def silenceFeeBounds (env : ValidatorEnv) : ValidatorEnv := fun c value =>
  match c with
  | .minimumFeePerByte => none
  | .maximumFeePerByte => none
  | _ => env c value

/-- The value of a run of decimal digits. -/
def digitsValue (acc : Nat) : List Char → Option Nat
  | [] => some acc
  | c :: cs => if c.isDigit then digitsValue (10 * acc + (c.toNat - 48)) cs else none

/-- The integer a form value stands for, when it is numeric: a number, or a
string of decimal digits with an optional minus sign. -/
def rateOf : JSVal → Option Int
  | .num n => some n
  | .str s =>
    match s.toList with
    | [] => none
    | '-' :: d :: ds => (digitsValue 0 (d :: ds)).map fun n => - (n : Int)
    | cs => (digitsValue 0 cs).map Int.ofNat
  | _ => none

/-- An empty form value: nothing entered. -/
def isEmptyValue : JSVal → Bool
  | .undefined => true
  | .null => true
  | .str s => s == ""
  | _ => false

/-- Modelled from the spec: `required` of `services/FormHelper`, not in the
two files.  Spec: "hard validation errors (required field missing, …)". -/
def specRequired (value : JSVal) : Option String :=
  if isEmptyValue value then some "required" else none

/-- Modelled from the spec: `minimumOneSatoshi` of `./validation`, not in the
two files.  Spec: "a rate of zero or non-numeric input is a hard error
("required"/"invalid amount")"; a rate below one satoshi per byte is
rejected, as the name of the check says. -/
def specMinimumOneSatoshi (value : JSVal) : Option String :=
  match rateOf value with
  | some r => if r < 1 then some "invalid amount" else none
  | none => some "invalid amount"

/-- The callbacks with `required` and `minimumOneSatoshi` as the spec
describes them, the others as given. -/
def specEnv (others : ValidatorEnv) : ValidatorEnv := fun c value =>
  match c with
  | .required => specRequired value
  | .minimumOneSatoshi => specMinimumOneSatoshi value
  | _ => others c value

/-- A candidate rate that is zero, empty or non-numeric. -/
def hardRate (value : JSVal) : Bool :=
  isEmptyValue value || rateOf value == none || rateOf value == some 0

/-! ## Example inputs -/

/-- An ordinary account with the fee in custom mode and the destination typed in. -/
def customFeeProps : Props :=
  { invalid := .bool false, submitting := .bool false, pristine := .bool false
    from_ := .obj [("type", .str "ACCOUNT"), ("label", .str "My Bitcoin Wallet")]
    watchOnly := .bool false, destination := .undefined, toToggled := .bool false
    enableToggle := .bool true, feePerByteToggled := .bool true
    feePerByteElements := .arr [], regularFeePerByte := .num 5, priorityFeePerByte := .num 20
    isPriorityFeePerByte := .bool false, totalFee := .str "0", excludeLockbox := .bool false }

/-- A watch-only legacy address as the `from` account. -/
def watchOnlyProps : Props :=
  { customFeeProps with
    from_ := .obj [("type", .str "LEGACY"), ("label", .str "Imported")]
    watchOnly := .bool true, feePerByteToggled := .bool false }

/-- The destination selector is open and no `from` account is set. -/
def noFromToggledProps : Props :=
  { customFeeProps with from_ := .undefined, toToggled := .bool true }

/-- The destination is typed in and no `from` account is set. -/
def noFromProps : Props :=
  { customFeeProps with from_ := .undefined }

/-- Modelled from the spec: `minimumFeePerByte` of `./validation` for a
minimum bound.  Spec: "`r < min` ⇒ warn(below-minimum)". -/
def specMinimumFeePerByte (min : Int) (value : JSVal) : Option String :=
  match rateOf value with
  | some r => if r < min then some "below minimum" else none
  | none => none

/-- Modelled from the spec: `maximumFeePerByte` of `./validation` for a
maximum bound.  Spec: "`r > max` ⇒ warn(above-maximum)". -/
def specMaximumFeePerByte (max : Int) (value : JSVal) : Option String :=
  match rateOf value with
  | some r => if max < r then some "above maximum" else none
  | none => none

/-- The callbacks of the spec's example: bounds `[min, max]`, every check the
spec does not describe accepting its value. -/
def exampleEnv (min max : Int) : ValidatorEnv :=
  specEnv fun c value =>
    match c with
    | .minimumFeePerByte => specMinimumFeePerByte min value
    | .maximumFeePerByte => specMaximumFeePerByte max value
    | _ => none

/-- Form values with every required field filled in and `fee` as the custom
fee rate. -/
def exampleValues (fee : JSVal) : List (String × JSVal) :=
  [("coin", .str "BTC"), ("from", .obj [("label", .str "My Bitcoin Wallet")]),
   ("to", .str "1BoatSLRHtKNngkdXEeobR76b53LETtpyT"), ("amount", .str "0.01"),
   ("feePerByte", fee)]

/-- Callbacks among which `isAddressDerivedFromPriv` rejects every key. -/
def mismatchEnv : ValidatorEnv := fun c _ =>
  match c with
  | .isAddressDerivedFromPriv => some "address mismatch"
  | _ => none

/-! ## Theorems -/

/-! ### JavaScript operators -/

theorem strictEqStr_eq_true {v : JSVal} {lit : String} :
    strictEqStr v lit = true ↔ v = .str lit := by
  cases v <;> simp [strictEqStr]

theorem strictEqStr_eq_false {v : JSVal} {lit : String} :
    strictEqStr v lit = false ↔ v ≠ .str lit := by
  cases v <;> simp [strictEqStr]

theorem equals_eq_true {v : JSVal} {lit : String} :
    equals v lit = true ↔ v = .str lit := by
  cases v <;> simp [equals]

theorem truthy_bool (b : Bool) : truthy (.bool b) = b := rfl

theorem truthy_jsOr (a b : JSVal) :
    truthy (jsOr a b) = (truthy a || truthy b) := by
  unfold jsOr
  cases h : truthy a <;> simp [h]

theorem member_ok_of_truthy {v : JSVal} (k : String) (h : truthy v = true) :
    ∃ w, member v k = .ok w := by
  cases v <;> simp_all [truthy, member]

theorem member_ok_of_present {v : JSVal} (k : String) (h1 : v ≠ .undefined) (h2 : v ≠ .null) :
    ∃ w, member v k = .ok w := by
  cases v <;> simp_all [member]

theorem member_str_truthy {v : JSVal} {k s : String} (h : member v k = .ok (.str s)) :
    truthy v = true := by
  cases v <;> simp_all [truthy, member]

/-! ### The lockbox guard and the submission gate -/

/-- The guard `disableLockboxSend` never throws: `from.type` is read only
behind `from &&`.  Its value is truthy exactly for a Lockbox account on a
browser that is neither Chrome nor Chromium. -/
theorem disableLockboxSend_spec (bowserName from_ : JSVal) :
    ∃ d, disableLockboxSend bowserName from_ = .ok d ∧
      (truthy d = true ↔
        (truthy from_ = true ∧ member from_ "type" = .ok (.str "LOCKBOX") ∧
          bowserName ≠ .str "Chrome" ∧ bowserName ≠ .str "Chromium")) := by
  unfold disableLockboxSend
  by_cases hf : truthy from_ = true
  · obtain ⟨ty, hty⟩ := member_ok_of_truthy "type" hf
    by_cases hl : strictEqStr ty "LOCKBOX" = true
    · have hty2 : ty = .str "LOCKBOX" := strictEqStr_eq_true.mp hl
      refine ⟨_, by simp [hf, hty, hl, bind, Except.bind, pure, Except.pure]; rfl, ?_⟩
      subst hty2
      simp [truthy_bool, hf, hty, strictEqStr_eq_false]
    · have hty2 : ty ≠ .str "LOCKBOX" := fun h => hl (strictEqStr_eq_true.mpr h)
      refine ⟨.bool false, by simp [hf, hty, hl, bind, Except.bind, pure, Except.pure], ?_⟩
      simp [truthy_bool, hf, hty, hty2]
  · refine ⟨from_, by simp [hf, pure, Except.pure], ?_⟩
    simp [hf]

/-- Claim C1.  The Continue button's `disabled` value is always computed, and
it is truthy if and only if `submitting`, `invalid` or `pristine` is truthy, or
`from` is present with `from.type === 'LOCKBOX'` and the browser name is
neither 'Chrome' nor 'Chromium'.  It is the value the rendered button
carries, it is truthy whenever `invalid` is, and it is the same for any two
props that agree on `submitting`, `invalid`, `pristine` and `from`. -/
theorem continue_disabled_iff (bowserName : JSVal) (p : Props) :
    ∃ d, continueDisabled bowserName p = .ok d ∧
      (truthy d = true ↔
        (truthy p.submitting = true ∨ truthy p.invalid = true ∨ truthy p.pristine = true ∨
          (truthy p.from_ = true ∧ member p.from_ "type" = .ok (.str "LOCKBOX") ∧
            bowserName ≠ .str "Chrome" ∧ bowserName ≠ .str "Chromium"))) ∧
      (truthy p.invalid = true → truthy d = true) ∧
      (∀ v, FirstStep bowserName p = .ok v → v.continueButton.disabled = d) ∧
      (∀ q : Props, q.submitting = p.submitting → q.invalid = p.invalid →
        q.pristine = p.pristine → q.from_ = p.from_ →
        continueDisabled bowserName q = .ok d) := by
  obtain ⟨l, hl, hiff⟩ := disableLockboxSend_spec bowserName p.from_
  have key : truthy (disabledExpr p l) = true ↔
      (truthy p.submitting = true ∨ truthy p.invalid = true ∨ truthy p.pristine = true ∨
          (truthy p.from_ = true ∧ member p.from_ "type" = .ok (.str "LOCKBOX") ∧
            bowserName ≠ .str "Chrome" ∧ bowserName ≠ .str "Chromium")) := by
    rw [← hiff]
    simp [disabledExpr, truthy_jsOr, or_assoc]
  refine ⟨disabledExpr p l, by simp [continueDisabled, hl, bind, Except.bind, pure, Except.pure],
    key, fun h => key.mpr (Or.inr (Or.inl h)), ?_, ?_⟩
  · intro v hv
    simp only [FirstStep, hl, bind, Except.bind, pure, Except.pure] at hv
    cases ht : toSelect p with
    | error e => simp [ht] at hv
    | ok t =>
      simp only [ht] at hv
      injection hv with hv
      rw [← hv]
      rfl
  · intro q h1 h2 h3 h4
    simp [continueDisabled, disabledExpr, h1, h2, h3, h4, hl, bind, Except.bind, pure, Except.pure]

/-- When the guard and the destination selector are both computed, the render
succeeds with the tree of the JSX. -/
theorem firstStep_tree {bowserName : JSVal} {p : Props} {l : JSVal} {t : Child FieldEl}
    (hl : disableLockboxSend bowserName p.from_ = .ok l) (ht : toSelect p = .ok t) :
    FirstStep bowserName p = .ok (firstStepTree p l t) := by
  simp [FirstStep, hl, ht, bind, Except.bind, pure, Except.pure]

/-- A successful render is the tree of the JSX for the computed guard and
destination selector. -/
theorem firstStep_ok_inv {bowserName : JSVal} {p : Props} {v : FirstStepView}
    (hv : FirstStep bowserName p = .ok v) :
    ∃ l t, disableLockboxSend bowserName p.from_ = .ok l ∧ toSelect p = .ok t ∧
      v = firstStepTree p l t := by
  obtain ⟨l, hl, -⟩ := disableLockboxSend_spec bowserName p.from_
  cases ht : toSelect p with
  | error e =>
    simp [FirstStep, hl, ht, bind, Except.bind] at hv
  | ok t =>
    rw [firstStep_tree hl ht] at hv
    injection hv with hv
    exact ⟨l, t, hl, rfl, hv.symm⟩

/-- When the guard and the destination selector are both computed, the render
succeeds, and the nodes of the view are the values of their expressions. -/
theorem firstStep_ok {bowserName : JSVal} {p : Props} {l : JSVal} {t : Child FieldEl}
    (hl : disableLockboxSend bowserName p.from_ = .ok l) (ht : toSelect p = .ok t) :
    ∃ v, FirstStep bowserName p = .ok v ∧
      v.browserWarning = browserWarning l ∧
      v.continueButton.disabled = disabledExpr p l ∧
      v.privRow = privRow p ∧ v.toSelect = t ∧ v.toText = toText p ∧
      v.feeSelect = feeSelect p ∧ v.feeCustom = feeCustom p :=
  ⟨_, firstStep_tree hl ht, rfl, rfl, rfl, rfl, rfl, rfl, rfl⟩

/-- A failure of the destination selector is the failure of the render. -/
theorem firstStep_error {bowserName : JSVal} {p : Props} {e : String}
    (ht : toSelect p = .error e) : FirstStep bowserName p = .error e := by
  obtain ⟨l, hl, -⟩ := disableLockboxSend_spec bowserName p.from_
  simp [FirstStep, hl, ht, bind, Except.bind, pure, Except.pure]

/-- The destination selector is computed unless `toToggled` is truthy and
`from` is `undefined` or `null`. -/
theorem toSelect_ok_of_present {p : Props} (h1 : p.from_ ≠ .undefined) (h2 : p.from_ ≠ .null) :
    ∃ t, toSelect p = .ok t := by
  obtain ⟨w, hw⟩ := member_ok_of_present "label" h1 h2
  unfold toSelect
  by_cases ht : truthy p.toToggled = true <;>
    simp [ht, hw, bind, Except.bind, pure, Except.pure]

theorem toSelect_ok_of_untoggled {p : Props} (h : truthy p.toToggled = false) :
    toSelect p = .ok (.value p.toToggled) := by
  simp [toSelect, h, pure, Except.pure]

/-- Claim C2, refuted as stated: for a Lockbox account on a valid, modified,
idle form, the browser name that enables the Continue button is not unique:
both 'Chrome' and 'Chromium' enable it; on 'Chromium', a name other than
'Chrome', the button is enabled and no warning banner is shown. -/
theorem lockbox_browser_not_unique :
    (¬ ∃! name : String, continueEnabled (.str name) lockboxProps = true) ∧
    continueEnabled (.str "Chromium") lockboxProps = true ∧
    bannerShown (.str "Chromium") lockboxProps = false := by
  refine ⟨?_, by decide, by decide⟩
  rintro ⟨n, -, huniq⟩
  have h1 : "Chrome" = n := huniq "Chrome" (by decide)
  have h2 : "Chromium" = n := huniq "Chromium" (by decide)
  exact absurd (h1.trans h2.symm) (by decide)

/-- Claim C2, amended.  For a `from` account of type 'LOCKBOX' on a valid,
modified, idle form, the Continue button is enabled exactly for the two
browser names 'Chrome' and 'Chromium'; for every other browser name the
render succeeds with the button disabled and the warning banner shown, and
the banner names the Chrome browser. -/
theorem lockbox_permitted_browsers (bowserName : JSVal) (p : Props)
    (hfrom : member p.from_ "type" = .ok (.str "LOCKBOX"))
    (hvalid : truthy p.invalid = false) (hmod : truthy p.pristine = false)
    (hsub : truthy p.submitting = false) :
    (continueEnabled bowserName p = true ↔
      (bowserName = .str "Chrome" ∨ bowserName = .str "Chromium")) ∧
    (∃ v, FirstStep bowserName p = .ok v ∧
      (truthy v.continueButton.disabled = true ↔
        (bowserName ≠ .str "Chrome" ∧ bowserName ≠ .str "Chromium")) ∧
      (Child.isElement v.browserWarning = true ↔
        (bowserName ≠ .str "Chrome" ∧ bowserName ≠ .str "Chromium")) ∧
      (∀ b, v.browserWarning = .element b → b.message.defaultMessage =
        "Sending Bitcoin from Lockbox can only be done while using the Chrome browser")) := by
  have hf : truthy p.from_ = true := member_str_truthy hfrom
  obtain ⟨l, hl, hiff⟩ := disableLockboxSend_spec bowserName p.from_
  have hl2 : truthy l = true ↔ (bowserName ≠ .str "Chrome" ∧ bowserName ≠ .str "Chromium") := by
    rw [hiff]; simp [hf, hfrom]
  have hd : truthy (disabledExpr p l) = truthy l := by
    simp [disabledExpr, truthy_jsOr, hvalid, hmod, hsub]
  have hpres1 : p.from_ ≠ .undefined := by
    intro h; rw [h] at hf; simp [truthy] at hf
  have hpres2 : p.from_ ≠ .null := by
    intro h; rw [h] at hf; simp [truthy] at hf
  obtain ⟨t, ht⟩ := toSelect_ok_of_present hpres1 hpres2
  obtain ⟨v, hv, hw, hb, -⟩ := firstStep_ok hl ht
  refine ⟨?_, v, hv, ?_, ?_, ?_⟩
  · simp only [continueEnabled, continueDisabled, hl, bind, Except.bind, pure, Except.pure]
    rw [Bool.not_eq_true', hd]
    by_cases h : truthy l = true
    · have := hl2.mp h
      simp [h, this.1, this.2]
    · have h2 : ¬ (bowserName ≠ .str "Chrome" ∧ bowserName ≠ .str "Chromium") :=
        fun hh => h (hl2.mpr hh)
      simp only [Bool.not_eq_true] at h
      simp only [h, true_iff]
      by_contra hc
      exact h2 ⟨fun a => hc (Or.inl a), fun a => hc (Or.inr a)⟩
  · rw [hb, hd]; exact hl2
  · rw [hw, ← hl2]
    unfold browserWarning Child.guard
    cases truthy l <;> simp [Child.isElement]
  · intro b hbw
    rw [hw] at hbw
    unfold browserWarning Child.guard at hbw
    cases hz : truthy l
    · simp [hz] at hbw
    · simp only [hz, if_true] at hbw
      injection hbw with hbw
      rw [← hbw]

/-- Witness for `lockbox_permitted_browsers`: the Lockbox props on Firefox. -/
theorem lockbox_permitted_browsers_witness :
    (continueEnabled (.str "Firefox") lockboxProps = true ↔
      ((JSVal.str "Firefox") = .str "Chrome" ∨ (JSVal.str "Firefox") = .str "Chromium")) ∧
    (∃ v, FirstStep (.str "Firefox") lockboxProps = .ok v ∧
      (truthy v.continueButton.disabled = true ↔
        ((JSVal.str "Firefox") ≠ .str "Chrome" ∧ (JSVal.str "Firefox") ≠ .str "Chromium")) ∧
      (Child.isElement v.browserWarning = true ↔
        ((JSVal.str "Firefox") ≠ .str "Chrome" ∧ (JSVal.str "Firefox") ≠ .str "Chromium")) ∧
      (∀ b, v.browserWarning = .element b → b.message.defaultMessage =
        "Sending Bitcoin from Lockbox can only be done while using the Chrome browser")) :=
  lockbox_permitted_browsers (.str "Firefox") lockboxProps rfl rfl rfl rfl

/-- Claim C10.  If `from` is present (neither `undefined` nor `null`) the
render succeeds whatever the other props are.  If `from` is absent and
`toToggled` is falsy the render succeeds, `disableLockboxSend` is the falsy
`from` itself and no browser warning is shown.  If `from` is absent and
`toToggled` is truthy the render fails with the `TypeError` of `from.label`. -/
theorem firstStep_from_access (bowserName : JSVal) (p : Props) :
    (p.from_ ≠ .undefined → p.from_ ≠ .null → ∃ v, FirstStep bowserName p = .ok v) ∧
    ((p.from_ = .undefined ∨ p.from_ = .null) → truthy p.toToggled = false →
      disableLockboxSend bowserName p.from_ = .ok p.from_ ∧ truthy p.from_ = false ∧
      ∃ v, FirstStep bowserName p = .ok v ∧ Child.isElement v.browserWarning = false) ∧
    ((p.from_ = .undefined ∨ p.from_ = .null) → truthy p.toToggled = true →
      ∃ e, member p.from_ "label" = .error e ∧ FirstStep bowserName p = .error e) := by
  refine ⟨?_, ?_, ?_⟩
  · intro h1 h2
    obtain ⟨l, hl, -⟩ := disableLockboxSend_spec bowserName p.from_
    obtain ⟨t, ht⟩ := toSelect_ok_of_present h1 h2
    obtain ⟨v, hv, -⟩ := firstStep_ok hl ht
    exact ⟨v, hv⟩
  · intro habs htog
    have hf : truthy p.from_ = false := by
      rcases habs with h | h <;> rw [h] <;> rfl
    have hl : disableLockboxSend bowserName p.from_ = .ok p.from_ := by
      simp [disableLockboxSend, hf, pure, Except.pure]
    obtain ⟨v, hv, hw, -⟩ := firstStep_ok hl (toSelect_ok_of_untoggled htog)
    refine ⟨hl, hf, v, hv, ?_⟩
    rw [hw]
    simp [browserWarning, Child.guard, hf, Child.isElement]
  · intro habs htog
    have hm : ∃ e, member p.from_ "label" = .error e := by
      rcases habs with h | h <;> rw [h] <;> exact ⟨_, rfl⟩
    obtain ⟨e, he⟩ := hm
    refine ⟨e, he, firstStep_error ?_⟩
    simp [toSelect, htog, he, bind, Except.bind]

/-! ### Address display -/

/-- The addresses collected from the children built for a list of entries are
the formatted addresses of the entries with a truthy label, in list order. -/
theorem filterMap_addressChildren (toCashAddr : String → Bool → String) (coin : JSVal)
    (ios : List IOEntry) :
    (ios.map fun io =>
        (Child.guard io.label
          ({ size := "12px", weight := 300, content := format toCashAddr io.address coin } :
            TextEl))).filterMap (fun c => (Child.element? c).map TextEl.content)
      = (ios.filter fun io => truthy io.label).map fun io => format toCashAddr io.address coin := by
  induction ios with
  | nil => rfl
  | cons io rest ih =>
    rw [List.map_cons, List.filterMap_cons]
    cases h : truthy io.label
    · simp only [Child.guard, h, Child.element?, Option.map_none', List.filter_cons]
      simpa using ih
    · simp only [Child.guard, h, Child.element?, Option.map_some', List.filter_cons]
      simpa using ih

/-- The addresses of a group, for a list that is present. -/
theorem addresses_of_list (toCashAddr : String → Bool → String) (coin : JSVal)
    (t : TooltipEl) (ios : List IOEntry)
    (h : t.children = addressChildren toCashAddr coin (some ios)) :
    t.addresses = (ios.filter fun io => truthy io.label).map
      fun io => format toCashAddr io.address coin := by
  unfold TooltipEl.addresses
  rw [h]
  exact filterMap_addressChildren toCashAddr coin ios

/-- For a coin other than 'BCH' the display expression is the address. -/
theorem format_of_ne_bch (toCashAddr : String → Bool → String) (a : String) {coin : JSVal}
    (h : coin ≠ .str "BCH") : format toCashAddr a coin = a := by
  have : equals coin "BCH" = false := by
    cases hc : equals coin "BCH"
    · rfl
    · exact absurd (equals_eq_true.mp hc) h
  simp [format, this]

/-- For the coin 'BCH' the display expression is `toCashAddr(a, true)`, so
applying it twice is applying `toCashAddr(·, true)` twice: what it does to its
own output is decided by `toCashAddr` alone. -/
theorem format_bch_twice (toCashAddr : String → Bool → String) (a : String) :
    format toCashAddr a (.str "BCH") = toCashAddr a true ∧
    format toCashAddr (format toCashAddr a (.str "BCH")) (.str "BCH") =
      toCashAddr (toCashAddr a true) true := by
  have h : equals (.str "BCH") "BCH" = true := by decide
  simp [format, h]

/-- Claim C3.  For every coin tag other than 'BCH' (an absent coin included),
whatever `toCashAddr` does, the display expression returns the address string
unchanged, the child built for every entry of `outputs` and of `inputs` is
`label && <Text>{address}</Text>` with the entry's own address, and the
addresses displayed in each group are the addresses of the labelled entries. -/
theorem addresses_passthrough (toCashAddr : String → Bool → String) (props : AddressesProps)
    (h : props.coin ≠ .str "BCH") :
    (∀ a : String, format toCashAddr a props.coin = a) ∧
    (Addresses toCashAddr props).toGroup.tooltip.children =
      props.outputs.map (fun ios => ios.map fun io =>
        Child.guard io.label { size := "12px", weight := 300, content := io.address }) ∧
    (Addresses toCashAddr props).fromGroup.tooltip.children =
      props.inputs.map (fun ios => ios.map fun io =>
        Child.guard io.label { size := "12px", weight := 300, content := io.address }) ∧
    (∀ ios, props.outputs = some ios →
      (Addresses toCashAddr props).toGroup.tooltip.addresses =
        (ios.filter fun io => truthy io.label).map IOEntry.address) ∧
    (∀ ios, props.inputs = some ios →
      (Addresses toCashAddr props).fromGroup.tooltip.addresses =
        (ios.filter fun io => truthy io.label).map IOEntry.address) := by
  have hfmt : ∀ a : String, format toCashAddr a props.coin = a :=
    fun a => format_of_ne_bch toCashAddr a h
  refine ⟨hfmt, ?_, ?_, ?_, ?_⟩
  · cases ho : props.outputs <;> simp [Addresses, addressChildren, ho, hfmt]
  · cases hi : props.inputs <;> simp [Addresses, addressChildren, hi, hfmt]
  · intro ios ho
    rw [addresses_of_list toCashAddr props.coin _ ios (by simp [Addresses, ho])]
    simp [hfmt]
  · intro ios hi
    rw [addresses_of_list toCashAddr props.coin _ ios (by simp [Addresses, hi])]
    simp [hfmt]

/-- Witness for `addresses_passthrough`: a bitcoin transaction with one
labelled output, one unlabelled output and a malformed labelled input. -/
theorem addresses_passthrough_witness :
    (Addresses (fun a _ => "bitcoincash:" ++ a)
        { from_ := "Savings", to_ := "Alice"
          outputs := some [⟨"1BoatSLRHtKNngkdXEeobR76b53LETtpyT", .str "Alice"⟩,
                           ⟨"3J98t1WpEZ73CNmQviecrnyiWrnqRhWNLy", .undefined⟩]
          inputs := some [⟨"not an address", .str "Savings"⟩]
          coin := .str "BTC" }).toGroup.tooltip.addresses
      = ["1BoatSLRHtKNngkdXEeobR76b53LETtpyT"] :=
  (addresses_passthrough (fun a _ => "bitcoincash:" ++ a)
    { from_ := "Savings", to_ := "Alice"
      outputs := some [⟨"1BoatSLRHtKNngkdXEeobR76b53LETtpyT", .str "Alice"⟩,
                       ⟨"3J98t1WpEZ73CNmQviecrnyiWrnqRhWNLy", .undefined⟩]
      inputs := some [⟨"not an address", .str "Savings"⟩]
      coin := .str "BTC" } (by simp)).2.2.2.1 _ rfl

/-- The hover flag of a list that is present is the truth value of "some
entry has a truthy label". -/
theorem hoverFlag_some (ios : List IOEntry) :
    truthy (hoverFlag (some ios)) = ios.any fun io => truthy io.label := rfl

/-- One group of `Addresses`, for a list that is present: the displayed
addresses, the per-entry children and the hover flag. -/
theorem group_present (toCashAddr : String → Bool → String) (coin : JSVal) (t : TooltipEl)
    (ios : List IOEntry) (hc : t.children = addressChildren toCashAddr coin (some ios))
    (hh : t.hover = hoverFlag (some ios)) :
    t.addresses = (ios.filter fun io => truthy io.label).map
        (fun io => format toCashAddr io.address coin) ∧
    (∃ cs, t.children = some cs ∧
      List.Forall₂ (fun io c =>
        (truthy io.label = true → ∃ e : TextEl, c = Child.element e ∧
          e.content = format toCashAddr io.address coin) ∧
        (truthy io.label = false → c = Child.value io.label)) ios cs) ∧
    (truthy t.hover = true ↔ t.addresses ≠ []) := by
  have ha := addresses_of_list toCashAddr coin t ios hc
  refine ⟨ha, ⟨_, hc, ?_⟩, ?_⟩
  · clear ha hc hh
    induction ios with
    | nil => exact List.Forall₂.nil
    | cons io rest ih =>
      refine List.Forall₂.cons ⟨?_, ?_⟩ ih
      · intro hl
        exact ⟨{ size := "12px", weight := 300, content := format toCashAddr io.address coin },
          by simp [Child.guard, hl], rfl⟩
      · intro hl
        simp [Child.guard, hl]
  · rw [ha, hh, hoverFlag_some]
    simp only [ne_eq, List.map_eq_nil_iff, List.filter_eq_nil_iff, List.any_eq_true]
    constructor
    · rintro ⟨io, hmem, hl⟩ hall
      exact hall io hmem hl
    · intro hne
      by_contra hno
      apply hne
      intro io hmem hl
      exact hno ⟨io, hmem, hl⟩

/-- One group of `Addresses`, for a list that is absent: no child, no
address, and a falsy hover flag. -/
theorem group_absent (toCashAddr : String → Bool → String) (coin : JSVal) (t : TooltipEl)
    (hc : t.children = addressChildren toCashAddr coin none) (hh : t.hover = hoverFlag none) :
    t.children = none ∧ t.addresses = [] ∧ truthy t.hover = false := by
  refine ⟨hc, ?_, ?_⟩
  · unfold TooltipEl.addresses; rw [hc]; rfl
  · rw [hh]; rfl

/-- Claim C9.  In each group of `Addresses`, when the list is present the
displayed addresses are exactly the formatted addresses of the entries whose
label is truthy, in list order; an entry with a truthy label yields a `<Text>`
with its formatted address and an entry without one yields its falsy label and
no address; and `hover` is truthy if and only if some address is displayed.
When the list is absent there is no child, no address, and `hover` is falsy. -/
theorem addresses_labelled_only (toCashAddr : String → Bool → String) (props : AddressesProps) :
    (∀ ios, props.outputs = some ios →
      ((Addresses toCashAddr props).toGroup.tooltip.addresses =
          (ios.filter fun io => truthy io.label).map
            (fun io => format toCashAddr io.address props.coin) ∧
        (∃ cs, (Addresses toCashAddr props).toGroup.tooltip.children = some cs ∧
          List.Forall₂ (fun io c =>
            (truthy io.label = true → ∃ e : TextEl, c = Child.element e ∧
              e.content = format toCashAddr io.address props.coin) ∧
            (truthy io.label = false → c = Child.value io.label)) ios cs) ∧
        (truthy (Addresses toCashAddr props).toGroup.tooltip.hover = true ↔
          (Addresses toCashAddr props).toGroup.tooltip.addresses ≠ []))) ∧
    (∀ ios, props.inputs = some ios →
      ((Addresses toCashAddr props).fromGroup.tooltip.addresses =
          (ios.filter fun io => truthy io.label).map
            (fun io => format toCashAddr io.address props.coin) ∧
        (∃ cs, (Addresses toCashAddr props).fromGroup.tooltip.children = some cs ∧
          List.Forall₂ (fun io c =>
            (truthy io.label = true → ∃ e : TextEl, c = Child.element e ∧
              e.content = format toCashAddr io.address props.coin) ∧
            (truthy io.label = false → c = Child.value io.label)) ios cs) ∧
        (truthy (Addresses toCashAddr props).fromGroup.tooltip.hover = true ↔
          (Addresses toCashAddr props).fromGroup.tooltip.addresses ≠ []))) ∧
    (props.outputs = none →
      (Addresses toCashAddr props).toGroup.tooltip.children = none ∧
      (Addresses toCashAddr props).toGroup.tooltip.addresses = [] ∧
      truthy (Addresses toCashAddr props).toGroup.tooltip.hover = false) ∧
    (props.inputs = none →
      (Addresses toCashAddr props).fromGroup.tooltip.children = none ∧
      (Addresses toCashAddr props).fromGroup.tooltip.addresses = [] ∧
      truthy (Addresses toCashAddr props).fromGroup.tooltip.hover = false) := by
  refine ⟨?_, ?_, ?_, ?_⟩
  · intro ios ho
    exact group_present toCashAddr props.coin _ ios (by simp [Addresses, ho])
      (by simp [Addresses, ho])
  · intro ios hi
    exact group_present toCashAddr props.coin _ ios (by simp [Addresses, hi])
      (by simp [Addresses, hi])
  · intro ho
    exact group_absent toCashAddr props.coin _ (by simp [Addresses, ho]) (by simp [Addresses, ho])
  · intro hi
    exact group_absent toCashAddr props.coin _ (by simp [Addresses, hi]) (by simp [Addresses, hi])

/-! ### Field validation and the form flag -/

/-- Running a list of checks depends only on what the listed checks return. -/
theorem runChecks_congr {env env' : ValidatorEnv} {checks : List ValidatorId} {value : JSVal}
    (h : ∀ c ∈ checks, env c value = env' c value) :
    runChecks env checks value = runChecks env' checks value := by
  induction checks with
  | nil => rfl
  | cons c rest ih =>
    have hc : env c value = env' c value := h c (List.mem_cons_self c rest)
    have hr : runChecks env rest value = runChecks env' rest value :=
      ih fun d hd => h d (List.mem_cons_of_mem c hd)
    simp only [runChecks, hc, hr]

/-- A check of the list that rejects the value gives the field an error. -/
theorem runChecks_isSome_of_mem {env : ValidatorEnv} {checks : List ValidatorId} {value : JSVal}
    {c : ValidatorId} (hc : c ∈ checks) (he : (env c value).isSome = true) :
    (runChecks env checks value).isSome = true := by
  induction checks with
  | nil => cases hc
  | cons d rest ih =>
    unfold runChecks
    cases hd : env d value with
    | some e => rfl
    | none =>
      rcases List.mem_cons.mp hc with h | h
      · rw [h, hd] at he; cases he
      · exact ih h

/-- The destination selector, when it is an element, is the field 'to' with
the single validator `required`. -/
theorem toSelect_element {p : Props} {t : Child FieldEl} (ht : toSelect p = .ok t) :
    ∀ f, t = .element f → f.name = "to" ∧ f.validate = [.required] := by
  intro f hf
  subst hf
  unfold toSelect at ht
  cases htt : truthy p.toToggled
  · simp [htt, pure, Except.pure] at ht
  · cases hm : member p.from_ "label" with
    | error e => simp [htt, hm, bind, Except.bind] at ht
    | ok w =>
      simp only [htt, hm, bind, Except.bind, pure, Except.pure, if_true] at ht
      injection ht with ht
      injection ht with ht
      rw [← ht]
      exact ⟨rfl, rfl⟩

/-- No field of the rendered form has a fee-bound check in its `validate` list. -/
theorem tree_fields_no_bounds {p : Props} {l : JSVal} {t : Child FieldEl}
    (ht : toSelect p = .ok t) :
    ∀ f ∈ (firstStepTree p l t).fields, ∀ c ∈ f.validate,
      c ≠ .minimumFeePerByte ∧ c ≠ .maximumFeePerByte := by
  have htv := toSelect_element ht
  intro f hf c hc
  simp only [FirstStepView.fields, firstStepTree, privRow, privRowEl, toText, feeSelect,
    feeCustom, customFeeField, Child.guard, jsNot, truthy_bool, List.mem_append, List.mem_cons, List.mem_singleton,
    Option.mem_toList, Option.mem_def] at hf
  rcases hf with ((((((hf | hf | hf) | hf) | hf) | hf) | hf | hf | hf) | hf) | hf
  · subst hf; simp only [] at hc; revert c; decide
  · subst hf; simp only [] at hc; revert c; decide
  · cases hf
  · split at hf <;> simp [Child.element?] at hf
    subst hf; simp only [] at hc; revert c; decide
  · cases t with
    | value w => simp [Child.element?] at hf
    | element e =>
      simp only [Child.element?, Option.some.injEq] at hf
      subst hf
      rw [(htv e rfl).2] at hc
      revert c; decide
  · split at hf <;> simp [Child.element?] at hf
    subst hf; simp only [] at hc; revert c; decide
  · subst hf; simp only [] at hc; revert c; decide
  · subst hf; simp only [] at hc; revert c; decide
  · cases hf
  · split at hf <;> simp [Child.element?] at hf
    subst hf; simp only [] at hc; revert c; decide
  · split at hf <;> simp [Child.element?] at hf
    subst hf; simp only [] at hc; revert c; decide

/-- The form flag depends only on what the `validate` checks of the rendered
fields return. -/
theorem formInvalid_congr {env env' : ValidatorEnv} {values : List (String × JSVal)}
    {fields : List FieldEl}
    (h : ∀ f ∈ fields, ∀ c ∈ f.validate, ∀ value, env c value = env' c value) :
    formInvalid env values fields = formInvalid env' values fields := by
  unfold formInvalid
  induction fields with
  | nil => rfl
  | cons f rest ih =>
    have hf : f.error env values = f.error env' values :=
      runChecks_congr fun c hc => h f (List.mem_cons_self f rest) c hc _
    have hr := ih fun g hg => h g (List.mem_cons_of_mem f hg)
    simp only [List.any_cons, hf, hr]

/-- A rendered field with a blocking validation result makes the form invalid. -/
theorem formInvalid_of_mem {env : ValidatorEnv} {values : List (String × JSVal)}
    {fields : List FieldEl} {f : FieldEl} (hf : f ∈ fields)
    (he : (f.error env values).isSome = true) : formInvalid env values fields = true := by
  unfold formInvalid
  exact List.any_eq_true.mpr ⟨f, hf, he⟩

/-- The wrapped form renders the JSX tree with the form flag of the mounted
fields, whenever the template renders. -/
theorem wrappedFirstStep_tree {env : ValidatorEnv} {bowserName : JSVal} {own : Props}
    {values : List (String × JSVal)} {l : JSVal} {t : Child FieldEl}
    (hl : disableLockboxSend bowserName own.from_ = .ok l) (ht : toSelect own = .ok t) :
    wrappedFirstStep env bowserName own values =
      .ok (firstStepTree
        { own with invalid := .bool (formInvalid env values (firstStepTree own l t).fields) }
        l t) := by
  unfold wrappedFirstStep
  rw [firstStep_tree hl ht]
  exact firstStep_tree (p := { own with
    invalid := .bool (formInvalid env values (firstStepTree own l t).fields) }) hl ht

/-- The wrapped form fails exactly as the template does. -/
theorem wrappedFirstStep_error {env : ValidatorEnv} {bowserName : JSVal} {own : Props}
    {values : List (String × JSVal)} {e : String} (h : FirstStep bowserName own = .error e) :
    wrappedFirstStep env bowserName own values = .error e := by
  unfold wrappedFirstStep
  rw [h]
  rfl

/-- The wrapped form renders whenever the template does. -/
theorem wrappedFirstStep_ok_of_ok {env : ValidatorEnv} {bowserName : JSVal} {own : Props}
    {values : List (String × JSVal)} (h : ∃ v, FirstStep bowserName own = .ok v) :
    ∃ v, wrappedFirstStep env bowserName own values = .ok v := by
  obtain ⟨v, hv⟩ := h
  obtain ⟨l, t, hl, ht, -⟩ := firstStep_ok_inv hv
  exact ⟨_, wrappedFirstStep_tree hl ht⟩

/-- An invalid form disables the Continue button of the wrapped form. -/
theorem wrapped_disabled_of_invalid {env : ValidatorEnv} {bowserName : JSVal} {own : Props}
    {values : List (String × JSVal)} {f : FieldEl}
    (hmem : ∀ l t, f ∈ (firstStepTree own l t).fields)
    (he : (f.error env values).isSome = true) :
    ∀ v, wrappedFirstStep env bowserName own values = .ok v →
      truthy v.continueButton.disabled = true := by
  intro v hv
  cases hm : FirstStep bowserName own with
  | error e =>
    rw [wrappedFirstStep_error hm] at hv
    cases hv
  | ok m =>
    obtain ⟨l, t, hl, ht, -⟩ := firstStep_ok_inv hm
    rw [wrappedFirstStep_tree hl ht] at hv
    injection hv with hv
    rw [← hv, formInvalid_of_mem (hmem l t) he]
    show truthy (disabledExpr _ l) = true
    simp [disabledExpr, truthy_jsOr, truthy_bool]

/-- In custom fee mode the custom input is a field of every rendered tree. -/
theorem feeCustom_mem_fields {own : Props} {f : FieldEl} (hf : feeCustom own = .element f) :
    ∀ l t, f ∈ (firstStepTree own l t).fields := by
  intro l t
  simp only [FirstStepView.fields, firstStepTree, List.mem_append]
  right
  rw [hf]
  simp [Child.element?]

/-- For a watch-only account the private-key field is a field of every
rendered tree. -/
theorem privRow_mem_fields {own : Props} {r : PrivRowEl} (hr : privRow own = .element r) :
    ∀ l t, r.field ∈ (firstStepTree own l t).fields := by
  intro l t
  simp only [FirstStepView.fields, firstStepTree, List.mem_append]
  left; left; left; left; left; right
  rw [hr]
  simp [Child.element?]

/-- Claim C5.  In custom fee mode the custom input is the field 'feePerByte'
with `validate = [required, minimumOneSatoshi]` and
`warn = [minimumFeePerByte, maximumFeePerByte]`.  Whatever the two fee-bound
checks return (two sets of callbacks that differ at most on those two checks,
one of them being the callbacks with the two checks returning nothing), the
field's blocking validation result is the same and the wrapped form renders
the same view, the Continue button's `disabled` value included. -/
theorem fee_bounds_are_warnings (env env' : ValidatorEnv) (bowserName : JSVal) (own : Props)
    (values : List (String × JSVal))
    (hcustom : truthy own.feePerByteToggled = true)
    (hsame : ∀ c, c ≠ .minimumFeePerByte → c ≠ .maximumFeePerByte → env c = env' c) :
    (∃ f, feeCustom own = .element f ∧ f.name = "feePerByte" ∧
      f.validate = [.required, .minimumOneSatoshi] ∧
      f.warn = [.minimumFeePerByte, .maximumFeePerByte] ∧
      f.error env values = f.error env' values ∧
      f.error env values = f.error (silenceFeeBounds env) values) ∧
    wrappedFirstStep env bowserName own values = wrappedFirstStep env' bowserName own values ∧
    wrappedFirstStep env bowserName own values =
      wrappedFirstStep (silenceFeeBounds env) bowserName own values ∧
    (wrappedFirstStep env bowserName own values).map (fun v => v.continueButton.disabled) =
      (wrappedFirstStep (silenceFeeBounds env) bowserName own values).map
        (fun v => v.continueButton.disabled) := by
  have hsil : ∀ c, c ≠ .minimumFeePerByte → c ≠ .maximumFeePerByte →
      env c = silenceFeeBounds env c := by
    intro c h1 h2
    cases c <;> first | rfl | exact absurd rfl h1 | exact absurd rfl h2
  have hwrap : ∀ e2 : ValidatorEnv,
      (∀ c, c ≠ .minimumFeePerByte → c ≠ .maximumFeePerByte → env c = e2 c) →
      wrappedFirstStep env bowserName own values = wrappedFirstStep e2 bowserName own values := by
    intro e2 h2
    cases hm : FirstStep bowserName own with
    | error e => rw [wrappedFirstStep_error hm, wrappedFirstStep_error hm]
    | ok m =>
      obtain ⟨l, t, hl, ht, -⟩ := firstStep_ok_inv hm
      rw [wrappedFirstStep_tree hl ht, wrappedFirstStep_tree hl ht]
      rw [@formInvalid_congr env e2]
      intro f hf c hc value
      have hb := tree_fields_no_bounds (l := l) ht f hf c hc
      rw [h2 c hb.1 hb.2]
  have herr : ∀ e2 : ValidatorEnv,
      (∀ c, c ≠ .minimumFeePerByte → c ≠ .maximumFeePerByte → env c = e2 c) →
      ∀ f : FieldEl, f.validate = [.required, .minimumOneSatoshi] →
        f.error env values = f.error e2 values := by
    intro e2 h2 f hv
    unfold FieldEl.error
    apply runChecks_congr
    intro c hc
    rw [hv] at hc
    have hb : c ≠ .minimumFeePerByte ∧ c ≠ .maximumFeePerByte := by
      revert c; decide
    rw [h2 c hb.1 hb.2]
  have hf : feeCustom own = .element customFeeField := by
    simp [feeCustom, Child.guard, hcustom]
  refine ⟨⟨customFeeField, hf, rfl, rfl, rfl,
    herr env' hsame customFeeField rfl, herr _ hsil customFeeField rfl⟩,
    hwrap env' hsame, hwrap _ hsil, ?_⟩
  rw [hwrap _ hsil]

/-- A candidate rate that is zero, empty or non-numeric is rejected by
`required` or by `minimumOneSatoshi` as the spec describes them. -/
theorem hardRate_rejected {value : JSVal} (h : hardRate value = true) :
    (specRequired value).isSome = true ∨ (specMinimumOneSatoshi value).isSome = true := by
  unfold hardRate at h
  simp only [Bool.or_eq_true, beq_iff_eq] at h
  rcases h with (h | h) | h
  · left; simp [specRequired, h]
  · right; simp [specMinimumOneSatoshi, h]
  · right; simp [specMinimumOneSatoshi, h]

/-- Claim C6.  With `required` and `minimumOneSatoshi` as the spec describes
them and every other callback (the fee-bound checks and their bounds
included) arbitrary: in custom fee mode, for every candidate rate that is
zero, empty or non-numeric, the custom input 'feePerByte' has a blocking
validation result that comes from its `validate` list
`[required, minimumOneSatoshi]`, whatever its `warn` list returns; every view
the wrapped form renders has the Continue button disabled, and the wrapped
form renders whenever the template does. -/
theorem zero_fee_is_hard_error (others : ValidatorEnv) (bowserName : JSVal) (own : Props)
    (values : List (String × JSVal))
    (hcustom : truthy own.feePerByteToggled = true)
    (hhard : hardRate (lookupField "feePerByte" values) = true) :
    (∃ f, feeCustom own = .element f ∧ f.name = "feePerByte" ∧
      f.validate = [.required, .minimumOneSatoshi] ∧
      (f.error (specEnv others) values).isSome = true ∧
      f.error (specEnv others) values =
        (specRequired (lookupField "feePerByte" values)).orElse
          (fun _ => specMinimumOneSatoshi (lookupField "feePerByte" values))) ∧
    (∀ v, wrappedFirstStep (specEnv others) bowserName own values = .ok v →
      truthy v.continueButton.disabled = true) ∧
    ((∃ v, FirstStep bowserName own = .ok v) →
      ∃ v, wrappedFirstStep (specEnv others) bowserName own values = .ok v) := by
  have hf : feeCustom own = .element customFeeField := by
    simp [feeCustom, Child.guard, hcustom]
  have herr : (customFeeField.error (specEnv others) values).isSome = true := by
    rcases hardRate_rejected hhard with h | h
    · exact runChecks_isSome_of_mem (c := .required) (by decide) h
    · exact runChecks_isSome_of_mem (c := .minimumOneSatoshi) (by decide) h
  refine ⟨⟨_, hf, rfl, rfl, herr, ?_⟩,
    wrapped_disabled_of_invalid (feeCustom_mem_fields hf) herr, wrappedFirstStep_ok_of_ok⟩
  simp only [FieldEl.error, customFeeField, runChecks, specEnv]
  cases specRequired (lookupField "feePerByte" values) <;>
    cases specMinimumOneSatoshi (lookupField "feePerByte" values) <;> rfl

/-- Claim C8.  The private-key row is an element if and only if `watchOnly`
is truthy, and every render of `FirstStep` carries exactly that node; when it
is an element its field is 'priv' with the blocking validators `required`,
`validBitcoinPrivateKey`, `isAddressDerivedFromPriv`, in that order, and no
warning check.  Hence, for a watch-only account, whenever
`isAddressDerivedFromPriv` rejects the entered key, the field 'priv' has a
blocking validation result, every view the wrapped form renders has the
Continue button disabled, and the wrapped form renders whenever the template
does. -/
theorem priv_field_watch_only (env : ValidatorEnv) (bowserName : JSVal) (p : Props)
    (values : List (String × JSVal)) :
    (Child.isElement (privRow p) = true ↔ truthy p.watchOnly = true) ∧
    (∀ v, FirstStep bowserName p = .ok v → v.privRow = privRow p) ∧
    (∀ r, privRow p = .element r →
      r.field.name = "priv" ∧
      r.field.validate = [.required, .validBitcoinPrivateKey, .isAddressDerivedFromPriv] ∧
      r.field.warn = []) ∧
    (truthy p.watchOnly = true →
      (env .isAddressDerivedFromPriv (lookupField "priv" values)).isSome = true →
      (∃ r, privRow p = .element r ∧ (r.field.error env values).isSome = true) ∧
      (∀ v, wrappedFirstStep env bowserName p values = .ok v →
        truthy v.continueButton.disabled = true) ∧
      ((∃ v, FirstStep bowserName p = .ok v) →
        ∃ v, wrappedFirstStep env bowserName p values = .ok v)) := by
  refine ⟨?_, ?_, ?_, ?_⟩
  · unfold privRow Child.guard
    cases truthy p.watchOnly <;> simp [Child.isElement]
  · intro v hv
    obtain ⟨l, t, -, -, rfl⟩ := firstStep_ok_inv hv
    rfl
  · intro r hr
    unfold privRow Child.guard at hr
    cases hw : truthy p.watchOnly
    · simp [hw] at hr
    · simp only [hw, if_true] at hr
      injection hr with hr
      rw [← hr]
      exact ⟨rfl, rfl, rfl⟩
  · intro hw hrej
    have hr : privRow p = .element privRowEl := by
      simp [privRow, Child.guard, hw]
    have herr : (privRowEl.field.error env values).isSome = true :=
      runChecks_isSome_of_mem (c := .isAddressDerivedFromPriv) (by decide) hrej
    exact ⟨⟨_, hr, herr⟩, wrapped_disabled_of_invalid (privRow_mem_fields hr) herr,
      wrappedFirstStep_ok_of_ok⟩

/-! ### Fee entry modes -/

/-- The preset selector and the custom input, whichever is rendered, are bound
to the same form field name 'feePerByte', and exactly one of the two is
rendered: the selector when `feePerByteToggled` is falsy, the custom input
when it is truthy. -/
theorem fee_fields_share_name (p : Props) :
    (∀ f, feeSelect p = .element f → f.name = "feePerByte") ∧
    (∀ f, feeCustom p = .element f → f.name = "feePerByte") ∧
    (Child.isElement (feeSelect p) = !truthy p.feePerByteToggled) ∧
    (Child.isElement (feeCustom p) = truthy p.feePerByteToggled) := by
  unfold feeSelect feeCustom Child.guard jsNot
  cases h : truthy p.feePerByteToggled <;>
    simp [truthy_bool, Child.isElement, customFeeField]

/-! ### Instances -/

/-- Witness for `continue_disabled_iff`: a Lockbox account on Firefox. -/
theorem continue_disabled_iff_witness :
    ∃ d, continueDisabled (.str "Firefox") lockboxProps = .ok d ∧ truthy d = true :=
  match continue_disabled_iff (.str "Firefox") lockboxProps with
  | ⟨d, hd, hiff, _⟩ =>
    ⟨d, hd, hiff.mpr (Or.inr (Or.inr (Or.inr ⟨rfl, rfl, by simp, by simp⟩)))⟩

/-- Witness for `firstStep_from_access`: an account renders, an absent `from`
renders while the destination is typed in, and fails on `from.label` once the
destination selector is open. -/
theorem firstStep_from_access_witness :
    (∃ v, FirstStep (.str "Firefox") lockboxProps = .ok v) ∧
    (∃ v, FirstStep (.str "Firefox") noFromProps = .ok v ∧
      Child.isElement v.browserWarning = false) ∧
    (∃ e, member JSVal.undefined "label" = .error e ∧
      FirstStep (.str "Firefox") noFromToggledProps = .error e) :=
  ⟨(firstStep_from_access (.str "Firefox") lockboxProps).1 (by simp [lockboxProps])
      (by simp [lockboxProps]),
    ((firstStep_from_access (.str "Firefox") noFromProps).2.1 (Or.inl rfl) rfl).2.2,
    (firstStep_from_access (.str "Firefox") noFromToggledProps).2.2 (Or.inl rfl) rfl⟩

/-- Witness for `addresses_labelled_only`: a Bitcoin Cash transaction with
one labelled and one unlabelled output. -/
theorem addresses_labelled_only_witness :
    (Addresses (fun a _ => "q" ++ a)
        { from_ := "Savings", to_ := "Alice"
          outputs := some [⟨"1BoatSLRHtKNngkdXEeobR76b53LETtpyT", .str "Alice"⟩,
                           ⟨"3J98t1WpEZ73CNmQviecrnyiWrnqRhWNLy", .undefined⟩]
          inputs := none
          coin := .str "BCH" }).toGroup.tooltip.addresses
      = ["q1BoatSLRHtKNngkdXEeobR76b53LETtpyT"] :=
  ((addresses_labelled_only (fun a _ => "q" ++ a)
    { from_ := "Savings", to_ := "Alice"
      outputs := some [⟨"1BoatSLRHtKNngkdXEeobR76b53LETtpyT", .str "Alice"⟩,
                       ⟨"3J98t1WpEZ73CNmQviecrnyiWrnqRhWNLy", .undefined⟩]
      inputs := none
      coin := .str "BCH" }).1 _ rfl).1

/-- Witness for `fee_bounds_are_warnings`: the spec's example, bounds
`[1, 200]` and the custom rate 300: the field has the warning "above maximum",
no blocking result, and the Continue button is enabled, as with the two
checks silent. -/
theorem fee_bounds_are_warnings_witness :
    customFeeField.warning (exampleEnv 1 200) (exampleValues (.num 300)) = some "above maximum" ∧
    customFeeField.error (exampleEnv 1 200) (exampleValues (.num 300)) = none ∧
    (wrappedFirstStep (exampleEnv 1 200) (.str "Chrome") customFeeProps
        (exampleValues (.num 300))).map (fun v => truthy v.continueButton.disabled)
      = .ok false ∧
    wrappedFirstStep (exampleEnv 1 200) (.str "Chrome") customFeeProps (exampleValues (.num 300)) =
      wrappedFirstStep (silenceFeeBounds (exampleEnv 1 200)) (.str "Chrome") customFeeProps
        (exampleValues (.num 300)) :=
  ⟨rfl, rfl, rfl,
    (fee_bounds_are_warnings (exampleEnv 1 200) (silenceFeeBounds (exampleEnv 1 200))
      (.str "Chrome") customFeeProps (exampleValues (.num 300)) rfl
      (fun c h1 h2 => by
        cases c <;> first | rfl | exact absurd rfl h1 | exact absurd rfl h2)).2.1⟩

/-- Witness for `zero_fee_is_hard_error`: the spec's example, bounds
`[1, 200]` and the custom rate "0". -/
theorem zero_fee_is_hard_error_witness :
    customFeeField.error (exampleEnv 1 200) (exampleValues (.str "0")) = some "invalid amount" ∧
    ∃ v, wrappedFirstStep (exampleEnv 1 200) (.str "Chrome") customFeeProps
        (exampleValues (.str "0")) = .ok v ∧ truthy v.continueButton.disabled = true :=
  ⟨by decide,
    match (zero_fee_is_hard_error _ (.str "Chrome") customFeeProps (exampleValues (.str "0"))
        rfl (by decide)).2.2 ⟨_, rfl⟩ with
    | ⟨v, hv⟩ =>
      ⟨v, hv, (zero_fee_is_hard_error _ (.str "Chrome") customFeeProps
        (exampleValues (.str "0")) rfl (by decide)).2.1 v hv⟩⟩

/-- Witness for `priv_field_watch_only`: a watch-only account and a key that
`isAddressDerivedFromPriv` rejects. -/
theorem priv_field_watch_only_witness :
    Child.isElement (privRow watchOnlyProps) = true ∧
    ∃ v, wrappedFirstStep mismatchEnv (.str "Chrome") watchOnlyProps
        [("priv", .str "L1aW4aubDFB7yfras2S1mN3bqg9nwySY8nkoLmJebSLD5BWv3ENZ")] = .ok v ∧
      truthy v.continueButton.disabled = true :=
  ⟨(priv_field_watch_only mismatchEnv (.str "Chrome") watchOnlyProps []).1.mpr rfl,
    match ((priv_field_watch_only mismatchEnv (.str "Chrome") watchOnlyProps
        [("priv", .str "L1aW4aubDFB7yfras2S1mN3bqg9nwySY8nkoLmJebSLD5BWv3ENZ")]).2.2.2
          rfl rfl).2.2 ⟨_, rfl⟩ with
    | ⟨v, hv⟩ =>
      ⟨v, hv, ((priv_field_watch_only mismatchEnv (.str "Chrome") watchOnlyProps
        [("priv", .str "L1aW4aubDFB7yfras2S1mN3bqg9nwySY8nkoLmJebSLD5BWv3ENZ")]).2.2.2
          rfl rfl).2.1 v hv⟩⟩

end Wallet
